import Mathlib

/-
  Shallow embedding of the `wc` text-statistics utility (src/main.rs).

  File contents are modelled as lists of bytes (`List Nat`, each < 256).
  The scanner `count` mirrors the Rust implementation: the file is read
  through a 1024-byte buffer (`chunks1024`), each buffered chunk is UTF-8
  validated as a whole (`decodeUtf8`, mirroring `std::str::from_utf8` with
  its `valid_up_to` error offset), and the decoded scalar values are
  processed line-by-line (`lineStep`), since the inner `for` loop breaks on
  the first newline and consumes only the processed bytes.

  The aggregator/formatter (`calculate_total_and_max_width_per_column`,
  `printMetrics`, `renderAll`, `printCountOutput`/`printCountResult`)
  mirrors the rendering half of the program.  Arithmetic underflow of the
  `usize` width subtraction is modelled by the checked subtraction `csub`
  (`none` = panic of the Rust program).
-/

/-- Mirrors the `Metrics` struct of src/main.rs. -/
structure Metrics where
  bytes : Nat
  chars : Nat
  lines : Nat
  words : Nat
  max_line_length : Nat
  filename : String
deriving Repr, DecidableEq

/-- Mirrors the `ShowOptions` struct of src/main.rs. -/
structure ShowOptions where
  lines : Bool
  chars : Bool
  bytes : Bool
  words : Bool
  max_line_length : Bool
deriving Repr, DecidableEq

/-- Mirrors `ShowOptions::is_default`. -/
def ShowOptions.is_default (o : ShowOptions) : Bool :=
  !(o.chars || o.words || o.bytes || o.max_line_length || o.lines)

/-- Errors of a scan: `File::open`/read failures, or UTF-8 decoding failure
(`Error::new(ErrorKind::InvalidData, utf8err)`), carrying the failed
chunk's `valid_up_to` byte offset. -/
inductive ScanError where
  | ioError : ScanError
  | invalidEncoding (offset : Nat) : ScanError
deriving Repr, DecidableEq

instance {ε α : Type} [DecidableEq ε] [DecidableEq α] : DecidableEq (Except ε α) := fun x y =>
  match x, y with
  | Except.ok a, Except.ok b =>
    if h : a = b then isTrue (by rw [h]) else isFalse (fun hc => h (Except.ok.inj hc))
  | Except.error a, Except.error b =>
    if h : a = b then isTrue (by rw [h]) else isFalse (fun hc => h (Except.error.inj hc))
  | Except.ok _, Except.error _ => isFalse (fun hc => Except.noConfusion hc)
  | Except.error _, Except.ok _ => isFalse (fun hc => Except.noConfusion hc)

/-- Mirrors Rust `char::len_utf8` on the scalar value. -/
def lenUtf8 (c : Nat) : Nat :=
  if c < 0x80 then 1 else if c < 0x800 then 2 else if c < 0x10000 then 3 else 4

/-- Mirrors Rust `char::is_whitespace` (the Unicode White_Space property). -/
def isRustWhitespace (c : Nat) : Bool :=
  c == 9 || c == 10 || c == 11 || c == 12 || c == 13 || c == 32 ||
  c == 0x85 || c == 0xA0 || c == 0x1680 ||
  (0x2000 ≤ c && c ≤ 0x200A) || c == 0x2028 || c == 0x2029 ||
  c == 0x202F || c == 0x205F || c == 0x3000

/-- A UTF-8 continuation byte. -/
def isCont (b : Nat) : Prop := 0x80 ≤ b ∧ b ≤ 0xBF

instance (b : Nat) : Decidable (isCont b) := by unfold isCont; infer_instance

/-- Admissible second byte of a three-byte sequence (rejects overlong
encodings and surrogates, as `std::str::from_utf8` does). -/
def cont3Ok (b0 b1 : Nat) : Prop :=
  (b0 = 0xE0 ∧ 0xA0 ≤ b1 ∧ b1 ≤ 0xBF) ∨
  (0xE1 ≤ b0 ∧ b0 ≤ 0xEC ∧ isCont b1) ∨
  (b0 = 0xED ∧ 0x80 ≤ b1 ∧ b1 ≤ 0x9F) ∨
  (0xEE ≤ b0 ∧ b0 ≤ 0xEF ∧ isCont b1)

instance (b0 b1 : Nat) : Decidable (cont3Ok b0 b1) := by unfold cont3Ok; infer_instance

/-- Admissible second byte of a four-byte sequence. -/
def cont4Ok (b0 b1 : Nat) : Prop :=
  (b0 = 0xF0 ∧ 0x90 ≤ b1 ∧ b1 ≤ 0xBF) ∨
  (0xF1 ≤ b0 ∧ b0 ≤ 0xF3 ∧ isCont b1) ∨
  (b0 = 0xF4 ∧ 0x80 ≤ b1 ∧ b1 ≤ 0x8F)

instance (b0 b1 : Nat) : Decidable (cont4Ok b0 b1) := by unfold cont4Ok; infer_instance

/-- Prepend a decoded scalar on success; shift the error offset by the
number of bytes already consumed. -/
def consOrShift (cp k : Nat) : Except Nat (List Nat) → Except Nat (List Nat)
  | Except.ok cps => Except.ok (cp :: cps)
  | Except.error p => Except.error (p + k)

/-- Mirrors `std::str::from_utf8`: decodes a byte list to its scalar
values, or returns the `valid_up_to` offset of the first invalid or
incomplete sequence. -/
def decodeUtf8 : List Nat → Except Nat (List Nat)
  | [] => Except.ok []
  | b0 :: bs =>
    if b0 < 0x80 then
      consOrShift b0 1 (decodeUtf8 bs)
    else if 0xC2 ≤ b0 ∧ b0 ≤ 0xDF then
      match bs with
      | b1 :: bs2 =>
        if isCont b1 then
          consOrShift ((b0 - 0xC0) * 64 + (b1 - 0x80)) 2 (decodeUtf8 bs2)
        else Except.error 0
      | [] => Except.error 0
    else if 0xE0 ≤ b0 ∧ b0 ≤ 0xEF then
      match bs with
      | b1 :: b2 :: bs3 =>
        if cont3Ok b0 b1 ∧ isCont b2 then
          consOrShift ((b0 - 0xE0) * 4096 + (b1 - 0x80) * 64 + (b2 - 0x80)) 3 (decodeUtf8 bs3)
        else Except.error 0
      | _ => Except.error 0
    else if 0xF0 ≤ b0 ∧ b0 ≤ 0xF4 then
      match bs with
      | b1 :: b2 :: b3 :: bs4 =>
        if cont4Ok b0 b1 ∧ isCont b2 ∧ isCont b3 then
          consOrShift ((b0 - 0xF0) * 262144 + (b1 - 0x80) * 4096 + (b2 - 0x80) * 64 + (b3 - 0x80))
            4 (decodeUtf8 bs4)
        else Except.error 0
      | _ => Except.error 0
    else Except.error 0

/-- The `if let Some(false) = last_char_was_word_separator { m.words += 1 }`
that runs after the inner `for` loop of `count`. -/
def endUnit (acc : Metrics) (last : Option Bool) : Metrics :=
  if last = some false then { acc with words := acc.words + 1 } else acc

/-- One iteration of the outer loop of `count`: the inner `for c in s.chars()`
loop, which breaks at the first newline.  Returns the updated metrics and
the scalar values left unconsumed in the buffer. -/
def lineStep (acc : Metrics) (last : Option Bool) : List Nat → Metrics × List Nat
  | [] => (endUnit acc last, [])
  | c :: cs =>
    let acc1 := { acc with bytes := acc.bytes + lenUtf8 c, chars := acc.chars + 1 }
    if c = 10 then
      (endUnit { acc1 with lines := acc1.lines + 1 } last, cs)
    else if isRustWhitespace c then
      lineStep
        { acc1 with max_line_length :=
            if c = 9 then acc1.max_line_length + 7 else acc1.max_line_length }
        (some true) cs
    else
      lineStep
        { acc1 with words := if last = some true then acc1.words + 1 else acc1.words }
        (some false) cs

/-- Iterate `lineStep` until one buffered chunk is exhausted (fuelled; the
fuel `cps.length` always suffices since each step consumes a scalar). -/
def processReadAux : Nat → Metrics → List Nat → Metrics
  | _, acc, [] => acc
  | 0, acc, _ => acc
  | fuel + 1, acc, c :: cs =>
    let p := lineStep acc none (c :: cs)
    processReadAux fuel p.1 p.2

/-- Process all scalar values of one buffered chunk. -/
def processRead (acc : Metrics) (cps : List Nat) : Metrics :=
  processReadAux cps.length acc cps

/-- Fuelled splitting into 1024-byte reads; the fuel `l.length` always
suffices since every step consumes at least one byte. -/
def chunks1024Aux : Nat → List Nat → List (List Nat)
  | _, [] => []
  | 0, l => [l]
  | fuel + 1, c :: cs => ((c :: cs).take 1024) :: chunks1024Aux fuel ((c :: cs).drop 1024)

/-- The reads performed by `BufReader::with_capacity(1024, f)`: the file's
bytes in successive chunks of 1024. -/
def chunks1024 (l : List Nat) : List (List Nat) := chunks1024Aux l.length l

/-- The outer loop of `count`: each chunk is UTF-8 validated as a whole,
then scanned. -/
def processChunks : List (List Nat) → Metrics → Except ScanError Metrics
  | [], acc => Except.ok acc
  | ch :: rest, acc =>
    match decodeUtf8 ch with
    | Except.error p => Except.error (ScanError.invalidEncoding p)
    | Except.ok cps => processChunks rest (processRead acc cps)

/-- Mirrors `count` of src/main.rs.  The file system is abstracted to the
result of opening the file: `Except.error ()` means `File::open` failed. -/
def count (filename : String) (file : Except Unit (List Nat)) : Except ScanError Metrics :=
  match file with
  | Except.error _ => Except.error ScanError.ioError
  | Except.ok content =>
    processChunks (chunks1024 content) ⟨0, 0, 0, 0, 0, filename⟩

/-- Mirrors `usize::to_string().len()`: the number of decimal digits. -/
def numDigits (n : Nat) : Nat := (toString n).length

/-- One iteration of the accumulation loop of
`calculate_total_and_max_width_per_column`. -/
def calcStep (p : Metrics × Metrics) (m : Metrics) : Metrics × Metrics :=
  ({ p.1 with
      bytes := p.1.bytes + m.bytes,
      chars := p.1.chars + m.chars,
      lines := p.1.lines + m.lines,
      words := p.1.words + m.words,
      max_line_length := max p.1.max_line_length m.max_line_length },
   { p.2 with
      bytes := max p.2.bytes m.bytes,
      chars := max p.2.chars m.chars,
      lines := max p.2.lines m.lines,
      words := max p.2.words m.words })

/-- Mirrors `calculate_total_and_max_width_per_column` of src/main.rs. -/
def calculate_total_and_max_width_per_column (ms : List Metrics) : Metrics × Metrics :=
  let p := ms.foldl calcStep (⟨0, 0, 0, 0, 0, "total"⟩, ⟨0, 0, 0, 0, 0, ""⟩)
  (p.1,
   { p.2 with
      bytes := max (numDigits p.2.bytes) 8,
      chars := max (numDigits p.2.chars) 8,
      lines := max (numDigits p.2.lines) 8,
      words := max (numDigits p.2.words) 8 })

/-- Checked `usize` subtraction: `none` models the arithmetic-underflow
panic of `mwpc.field - remove_column`. -/
def csub (a b : Nat) : Option Nat := if b ≤ a then some (a - b) else none

/-- Rust `{:>width$}` right-justification (pads to at least `w`). -/
def padLeft (s : String) (w : Nat) : String :=
  String.mk (List.replicate (w - s.length) ' ') ++ s

/-- One numeric field as written by `write!(out, "{:>width$} ", v, width = w)`. -/
def numField (v w : Nat) : String := padLeft (toString v) w ++ " "

/-- One conditional field of `print_metrics`: on selection, compute the
width by checked subtraction of `remove_column` (second component) and
append the field, setting `remove_column` to 1. -/
def fld (sel : Bool) (v w : Nat) (p : Option (String × Nat)) : Option (String × Nat) :=
  match p with
  | none => none
  | some q =>
    if sel then
      match csub w q.2 with
      | none => none
      | some wd => some (q.1 ++ numField v wd, 1)
    else some q

/-- The `lines` field of `print_metrics`: printed with width `mwpc.lines`
directly (no subtraction); it initialises `remove_column`. -/
def linesField (m : Metrics) (opts : ShowOptions) (mwpc : Metrics) : String × Nat :=
  if opts.is_default || opts.lines then (numField m.lines mwpc.lines, 1) else ("", 0)

/-- Mirrors `print_metrics` of src/main.rs; `none` models a panic of the
width subtraction.  All fields after `lines` subtract `remove_column`
from their column width. -/
def printMetrics (m : Metrics) (opts : ShowOptions) (mwpc : Metrics) : Option String :=
  match fld opts.max_line_length m.max_line_length mwpc.max_line_length
        (fld (opts.is_default || opts.bytes) m.bytes mwpc.bytes
        (fld opts.chars m.chars mwpc.chars
        (fld (opts.is_default || opts.words) m.words mwpc.words
          (some (linesField m opts mwpc))))) with
  | none => none
  | some q => some (q.1 ++ m.filename ++ "\n")

/-- One file handed to `print_count`: its path and the result of opening
it (`Except.error ()` = I/O failure, otherwise its byte content). -/
def FileEntry : Type := String × Except Unit (List Nat)

/-- The scan loop of `print_count`: `let m = count(&file)?` over all files,
short-circuiting on the first error. -/
def scanAll : List FileEntry → Except ScanError (List Metrics)
  | [] => Except.ok []
  | f :: fs =>
    match count f.1 f.2 with
    | Except.error e => Except.error e
    | Except.ok m => (scanAll fs).map (fun ms => m :: ms)

/-- Render the per-file rows in order (`for m in &all_metrics`). -/
def renderRows : List Metrics → ShowOptions → Metrics → Option String
  | [], _, _ => some ""
  | m :: ms, opts, mwpc =>
    match printMetrics m opts mwpc with
    | none => none
    | some s =>
      match renderRows ms opts mwpc with
      | none => none
      | some r => some (s ++ r)

/-- The rendering half of `print_count`: all rows, then the total row when
`all_metrics.len() > 1`. -/
def renderAll (ms : List Metrics) (opts : ShowOptions) : Option String :=
  let p := calculate_total_and_max_width_per_column ms
  match renderRows ms opts p.2 with
  | none => none
  | some rows =>
    if 1 < ms.length then
      match printMetrics p.1 opts p.2 with
      | none => none
      | some t => some (rows ++ t)
    else some rows

/-- Everything `print_count` writes to the sink.  All scans happen before
any write, so a scan failure leaves the sink empty (`some ""`); `none`
models a panic during rendering. -/
def printCountOutput (files : List FileEntry) (opts : ShowOptions) : Option String :=
  match scanAll files with
  | Except.error _ => some ""
  | Except.ok ms => renderAll ms opts

/-- The error result `print_count` propagates, if any. -/
def printCountResult (files : List FileEntry) (_opts : ShowOptions) : Option ScanError :=
  match scanAll files with
  | Except.error e => some e
  | Except.ok _ => none

/-- Number of newline (`\n`) occurrences in a list of bytes or scalars. -/
def countNl : List Nat → Nat
  | [] => 0
  | c :: cs => (if c = 10 then 1 else 0) + countNl cs

/-- Discipline of `remove_column`: a field chain is either already panicked or
carries `remove_column = 1`. -/
def rcOne (p : Option (String × Nat)) : Prop :=
  p = none ∨ ∃ s, p = some (s, 1)

/-- The byte content of the file `"a b\nc\n"` used by the spec's reference
scenario. -/
def abcContent : List Nat := [97, 32, 98, 10, 99, 10]

/-- The default (no flags) selection. -/
def noFlags : ShowOptions := ⟨false, false, false, false, false⟩

/-- The selection with only `lines` chosen. -/
def onlyLines : ShowOptions := ⟨true, false, false, false, false⟩

/-- Sample row with an 8-digit byte count (used to probe column widths). -/
def wideRowA : Metrics := ⟨99999999, 1, 1, 1, 0, "a"⟩

/-- Second sample row with an 8-digit byte count. -/
def wideRowB : Metrics := ⟨99999999, 1, 1, 1, 0, "b"⟩

/-- Small sample row for witnesses. -/
def sampleRowA : Metrics := ⟨1, 2, 3, 4, 5, "x"⟩

/-- Second small sample row for witnesses. -/
def sampleRowB : Metrics := ⟨10, 20, 30, 40, 2, "y"⟩

/-- Word count as worded by the spec: the number of maximal runs of
consecutive non-whitespace scalar values (state `inWord` tracks whether a
run is open). -/
def specWordsAux : Bool → List Nat → Nat
  | _, [] => 0
  | inWord, c :: cs =>
    if isRustWhitespace c then specWordsAux false cs
    else (if inWord then 0 else 1) + specWordsAux true cs

/-- Spec-side word count over a file's scalar values. -/
def specWords (cps : List Nat) : Nat := specWordsAux false cps

/-- Maximum line display width as worded by the spec: a tab advances the
column to the next multiple of 8, a newline resets the column, every other
scalar advances it by 1; the result is the maximum column reached. -/
def specMllAux : Nat → Nat → List Nat → Nat
  | best, col, [] => max best col
  | best, col, c :: cs =>
    if c = 10 then specMllAux (max best col) 0 cs
    else if c = 9 then specMllAux best (col + (8 - col % 8)) cs
    else specMllAux best (col + 1) cs

/-- Spec-side maximum line length over a file's scalar values. -/
def specMaxLineLength (cps : List Nat) : Nat := specMllAux 0 0 cps

/-- Claim C1: the claim says `max_line_length` is the maximum display width
over lines (tab stops of 8).  The code never computes this: it only adds 7
per tab and never takes a per-line maximum (the `max` update is a commented
TODO in `count`), so for content `"a\n"` it returns 0 where the claimed
definition gives 1. -/
theorem c1_max_line_length_bug :
    count "f" (Except.ok [97, 10]) = Except.ok ⟨2, 2, 1, 1, 0, "f"⟩ ∧
    specMaxLineLength [97, 10] = 1 := by decide

/-- Claim C2: the claim says `words` counts maximal runs of non-whitespace.
The code resets its separator state at each line and both counts a word on
entry after a separator and again when the line ends in-word, so content
`" a\n"` (one word) yields `words = 2`. -/
theorem c2_words_bug :
    count "f" (Except.ok [32, 97, 10]) = Except.ok ⟨3, 3, 1, 2, 0, "f"⟩ ∧
    specWords [32, 97, 10] = 1 := by decide

/-- Claim C3: the claim says a single selected metric is printed with no
leading padding.  The code never waives the minimum width of 8: with only
`lines` selected on `"a b\nc\n"` it prints `"       2 f\n"` (seven leading
spaces), not `"2 f\n"`. -/
theorem c3_single_metric_padding_bug :
    printCountOutput [("f", Except.ok abcContent)] onlyLines = some "       2 f\n" ∧
    numDigits 2 = 1 := by decide

/-- Claim C5: default selection on `"a b\nc\n"` yields lines=2, words=3,
bytes=6, rendered as `"       2       3       6 "` followed by the label,
each numeric column 8 characters wide. -/
theorem c5_default_render :
    count "f" (Except.ok abcContent) = Except.ok ⟨6, 6, 2, 3, 0, "f"⟩ ∧
    printCountOutput [("f", Except.ok abcContent)] noFlags =
      some "       2       3       6 f\n" := by decide

/-- Claim C4 counterexample: for two rows of 99999999 bytes each, the total
is 199999998 (9 digits) but the computed column width is 8: the code takes
the maximum over the per-file rows only, excluding the total row. -/
theorem c4_counterexample :
    (calculate_total_and_max_width_per_column [wideRowA, wideRowB]).2.bytes ≠
      max 8 (numDigits (max
        (([wideRowA, wideRowB].map Metrics.bytes).foldr max 0)
        ((calculate_total_and_max_width_per_column [wideRowA, wideRowB]).1.bytes))) := by
  decide

/-- Per-field behaviour of the accumulation loop of
`calculate_total_and_max_width_per_column`: the total components sum, the
maximum-line-length component takes the maximum, the filename is kept. -/
theorem calcFold_total (ms : List Metrics) : ∀ p : Metrics × Metrics,
    (ms.foldl calcStep p).1.bytes = p.1.bytes + (ms.map Metrics.bytes).sum ∧
    (ms.foldl calcStep p).1.chars = p.1.chars + (ms.map Metrics.chars).sum ∧
    (ms.foldl calcStep p).1.lines = p.1.lines + (ms.map Metrics.lines).sum ∧
    (ms.foldl calcStep p).1.words = p.1.words + (ms.map Metrics.words).sum ∧
    (ms.foldl calcStep p).1.max_line_length
      = max p.1.max_line_length ((ms.map Metrics.max_line_length).foldr max 0) ∧
    (ms.foldl calcStep p).1.filename = p.1.filename := by
  induction ms with
  | nil => intro p; simp
  | cons m rest ih =>
    intro p
    simp only [List.foldl_cons, List.map_cons, List.sum_cons, List.foldr_cons]
    obtain ⟨h1, h2, h3, h4, h5, h6⟩ := ih (calcStep p m)
    refine ⟨?_, ?_, ?_, ?_, ?_, ?_⟩
    · rw [h1]; simp only [calcStep]; omega
    · rw [h2]; simp only [calcStep]; omega
    · rw [h3]; simp only [calcStep]; omega
    · rw [h4]; simp only [calcStep]; omega
    · rw [h5]; simp only [calcStep]; exact Nat.max_assoc _ _ _
    · rw [h6]; simp only [calcStep]

/-- Per-field behaviour of the width accumulation of
`calculate_total_and_max_width_per_column`: each width component takes the
maximum over the rows, and `max_line_length` is never updated. -/
theorem calcFold_mwpc (ms : List Metrics) : ∀ p : Metrics × Metrics,
    (ms.foldl calcStep p).2.bytes = max p.2.bytes ((ms.map Metrics.bytes).foldr max 0) ∧
    (ms.foldl calcStep p).2.chars = max p.2.chars ((ms.map Metrics.chars).foldr max 0) ∧
    (ms.foldl calcStep p).2.lines = max p.2.lines ((ms.map Metrics.lines).foldr max 0) ∧
    (ms.foldl calcStep p).2.words = max p.2.words ((ms.map Metrics.words).foldr max 0) ∧
    (ms.foldl calcStep p).2.max_line_length = p.2.max_line_length := by
  induction ms with
  | nil => intro p; simp
  | cons m rest ih =>
    intro p
    simp only [List.foldl_cons, List.map_cons, List.foldr_cons]
    obtain ⟨h1, h2, h3, h4, h5⟩ := ih (calcStep p m)
    refine ⟨?_, ?_, ?_, ?_, ?_⟩
    · rw [h1]; simp only [calcStep]; exact Nat.max_assoc _ _ _
    · rw [h2]; simp only [calcStep]; exact Nat.max_assoc _ _ _
    · rw [h3]; simp only [calcStep]; exact Nat.max_assoc _ _ _
    · rw [h4]; simp only [calcStep]; exact Nat.max_assoc _ _ _
    · rw [h5]; simp only [calcStep]

/-- Claim C4 (amended): each of the four column widths equals
`max(8, digits(max per-file value of that metric))`, the maximum taken over
the per-file rows only — the total row is excluded and cannot widen a
column. -/
theorem c4_width_formula (ms : List Metrics) :
    (calculate_total_and_max_width_per_column ms).2.bytes
      = max (numDigits ((ms.map Metrics.bytes).foldr max 0)) 8 ∧
    (calculate_total_and_max_width_per_column ms).2.chars
      = max (numDigits ((ms.map Metrics.chars).foldr max 0)) 8 ∧
    (calculate_total_and_max_width_per_column ms).2.lines
      = max (numDigits ((ms.map Metrics.lines).foldr max 0)) 8 ∧
    (calculate_total_and_max_width_per_column ms).2.words
      = max (numDigits ((ms.map Metrics.words).foldr max 0)) 8 := by
  obtain ⟨h1, h2, h3, h4, h5⟩ := calcFold_mwpc ms (⟨0, 0, 0, 0, 0, "total"⟩, ⟨0, 0, 0, 0, 0, ""⟩)
  simp only [calculate_total_and_max_width_per_column]
  exact ⟨by simp [h1], by simp [h2], by simp [h3], by simp [h4]⟩

/-- Width computation (`calculate_total_and_max_width_per_column`) always leaves the
`max_line_length` width at 0 (it is never accumulated and never finalised;
both spots are TODO comments in the source). -/
theorem calc_mwpc_mll (ms : List Metrics) :
    (calculate_total_and_max_width_per_column ms).2.max_line_length = 0 := by
  obtain ⟨-, -, -, -, h5⟩ := calcFold_mwpc ms (⟨0, 0, 0, 0, 0, "total"⟩, ⟨0, 0, 0, 0, 0, ""⟩)
  simp [calculate_total_and_max_width_per_column, h5]

/-- A selected field always leaves `remove_column = 1` (or has already
panicked). -/
theorem rcOne_fld_true (v w : Nat) (p : Option (String × Nat)) : rcOne (fld true v w p) := by
  cases p with
  | none => exact Or.inl rfl
  | some q =>
    simp only [fld, if_true]
    cases h : csub w q.2 with
    | none => exact Or.inl rfl
    | some wd => exact Or.inr ⟨q.1 ++ numField v wd, rfl⟩

/-- Property `rcOne` is preserved by any further field. -/
theorem rcOne_fld (sel : Bool) (v w : Nat) (p : Option (String × Nat)) (h : rcOne p) :
    rcOne (fld sel v w p) := by
  cases sel with
  | true => exact rcOne_fld_true v w p
  | false =>
    rcases h with h | ⟨s, h⟩ <;> subst h
    · exact Or.inl rfl
    · exact Or.inr ⟨s, by simp [fld]⟩

/-- A selected field of width 0 after some other field panics: the checked
subtraction `0 - 1` fails. -/
theorem fld_true_width_zero (v : Nat) (p : Option (String × Nat)) (h : rcOne p) :
    fld true v 0 p = none := by
  rcases h with h | ⟨s, h⟩ <;> subst h
  · rfl
  · simp [fld, csub]

/-- Claim C10: whenever the width record computed by
`calculate_total_and_max_width_per_column` is given to `print_metrics` with
`max_line_length` selected together with at least one of lines, words,
chars or bytes, the width subtraction `mwpc.max_line_length - remove_column`
underflows (the width is always 0) and the render panics (`none`) instead
of producing output. -/
theorem c10_width_underflow_panics (ms : List Metrics) (m : Metrics) (opts : ShowOptions)
    (hmll : opts.max_line_length = true)
    (hsel : (opts.lines || opts.words || opts.chars || opts.bytes) = true) :
    (calculate_total_and_max_width_per_column ms).2.max_line_length = 0 ∧
    printMetrics m opts (calculate_total_and_max_width_per_column ms).2 = none := by
  have h0 := calc_mwpc_mll ms
  refine ⟨h0, ?_⟩
  have hdef : opts.is_default = false := by
    simp [ShowOptions.is_default, hmll]
  simp only [Bool.or_eq_true] at hsel
  have hrc : rcOne (fld (opts.is_default || opts.bytes) m.bytes
      (calculate_total_and_max_width_per_column ms).2.bytes
      (fld opts.chars m.chars (calculate_total_and_max_width_per_column ms).2.chars
      (fld (opts.is_default || opts.words) m.words
        (calculate_total_and_max_width_per_column ms).2.words
        (some (linesField m opts (calculate_total_and_max_width_per_column ms).2))))) := by
    rcases hsel with ((hl | hw) | hc) | hb
    · have hlf : linesField m opts (calculate_total_and_max_width_per_column ms).2
          = (numField m.lines (calculate_total_and_max_width_per_column ms).2.lines, 1) := by
        simp [linesField, hl]
      exact rcOne_fld _ _ _ _ (rcOne_fld _ _ _ _ (rcOne_fld _ _ _ _
        (Or.inr ⟨numField m.lines (calculate_total_and_max_width_per_column ms).2.lines,
          by rw [hlf]⟩)))
    · rw [show (opts.is_default || opts.words) = true by simp [hw]]
      exact rcOne_fld _ _ _ _ (rcOne_fld _ _ _ _ (rcOne_fld_true _ _ _))
    · rw [hc]
      exact rcOne_fld _ _ _ _ (rcOne_fld_true _ _ _)
    · rw [show (opts.is_default || opts.bytes) = true by simp [hb]]
      exact rcOne_fld_true _ _ _
  unfold printMetrics
  rw [hmll, h0, fld_true_width_zero _ _ hrc]

/-- Witness for C10 at a concrete batch and selection
(`lines` and `max_line_length` both selected). -/
theorem c10_witness :
    (calculate_total_and_max_width_per_column [sampleRowA]).2.max_line_length = 0 ∧
    printMetrics sampleRowA ⟨true, false, false, false, true⟩
      (calculate_total_and_max_width_per_column [sampleRowA]).2 = none :=
  c10_width_underflow_panics [sampleRowA] sampleRowA ⟨true, false, false, false, true⟩ rfl rfl

/-- Claim C8: for a non-empty batch, the aggregate row sums bytes, chars,
lines and words, takes the maximum of `max_line_length`, is labeled
`"total"`, and is appended after the per-file rows exactly when the batch
has more than one row (a single row gets no total). -/
theorem c8_total_row (ms : List Metrics) (opts : ShowOptions) (hne : ms ≠ []) :
    (calculate_total_and_max_width_per_column ms).1.bytes = (ms.map Metrics.bytes).sum ∧
    (calculate_total_and_max_width_per_column ms).1.chars = (ms.map Metrics.chars).sum ∧
    (calculate_total_and_max_width_per_column ms).1.lines = (ms.map Metrics.lines).sum ∧
    (calculate_total_and_max_width_per_column ms).1.words = (ms.map Metrics.words).sum ∧
    (calculate_total_and_max_width_per_column ms).1.max_line_length
      = (ms.map Metrics.max_line_length).foldr max 0 ∧
    (calculate_total_and_max_width_per_column ms).1.filename = "total" ∧
    (ms.length = 1 →
      renderAll ms opts = renderRows ms opts (calculate_total_and_max_width_per_column ms).2) ∧
    (1 < ms.length →
      renderAll ms opts
        = (renderRows ms opts (calculate_total_and_max_width_per_column ms).2).bind
            (fun rows =>
              (printMetrics (calculate_total_and_max_width_per_column ms).1 opts
                (calculate_total_and_max_width_per_column ms).2).map
                (fun trow => rows ++ trow))) := by
  obtain ⟨h1, h2, h3, h4, h5, h6⟩ :=
    calcFold_total ms (⟨0, 0, 0, 0, 0, "total"⟩, ⟨0, 0, 0, 0, 0, ""⟩)
  have hfst : (calculate_total_and_max_width_per_column ms).1
      = (ms.foldl calcStep (⟨0, 0, 0, 0, 0, "total"⟩, ⟨0, 0, 0, 0, 0, ""⟩)).1 := by
    simp [calculate_total_and_max_width_per_column]
  refine ⟨by rw [hfst, h1]; simp, by rw [hfst, h2]; simp, by rw [hfst, h3]; simp,
    by rw [hfst, h4]; simp, by rw [hfst, h5]; simp, by rw [hfst, h6], ?_, ?_⟩
  · intro hlen
    simp only [renderAll]
    cases hr : renderRows ms opts (calculate_total_and_max_width_per_column ms).2 with
    | none => simp
    | some rows => simp [hlen]
  · intro hlen
    simp only [renderAll]
    cases hr : renderRows ms opts (calculate_total_and_max_width_per_column ms).2 with
    | none => simp
    | some rows =>
      simp only [hlen, if_true]
      cases hp : printMetrics (calculate_total_and_max_width_per_column ms).1 opts
          (calculate_total_and_max_width_per_column ms).2 with
      | none => simp [hp]
      | some trow => simp [hp]

/-- Witness for C8 at a concrete two-row batch under the default
selection. -/
theorem c8_witness :
    (calculate_total_and_max_width_per_column [sampleRowA, sampleRowB]).1.bytes
      = ([sampleRowA, sampleRowB].map Metrics.bytes).sum ∧
    (calculate_total_and_max_width_per_column [sampleRowA, sampleRowB]).1.chars
      = ([sampleRowA, sampleRowB].map Metrics.chars).sum ∧
    (calculate_total_and_max_width_per_column [sampleRowA, sampleRowB]).1.lines
      = ([sampleRowA, sampleRowB].map Metrics.lines).sum ∧
    (calculate_total_and_max_width_per_column [sampleRowA, sampleRowB]).1.words
      = ([sampleRowA, sampleRowB].map Metrics.words).sum ∧
    (calculate_total_and_max_width_per_column [sampleRowA, sampleRowB]).1.max_line_length
      = ([sampleRowA, sampleRowB].map Metrics.max_line_length).foldr max 0 ∧
    (calculate_total_and_max_width_per_column [sampleRowA, sampleRowB]).1.filename = "total" ∧
    ([sampleRowA, sampleRowB].length = 1 →
      renderAll [sampleRowA, sampleRowB] noFlags
        = renderRows [sampleRowA, sampleRowB] noFlags
            (calculate_total_and_max_width_per_column [sampleRowA, sampleRowB]).2) ∧
    (1 < [sampleRowA, sampleRowB].length →
      renderAll [sampleRowA, sampleRowB] noFlags
        = (renderRows [sampleRowA, sampleRowB] noFlags
              (calculate_total_and_max_width_per_column [sampleRowA, sampleRowB]).2).bind
            (fun rows =>
              (printMetrics (calculate_total_and_max_width_per_column [sampleRowA, sampleRowB]).1
                noFlags
                (calculate_total_and_max_width_per_column [sampleRowA, sampleRowB]).2).map
                (fun trow => rows ++ trow))) :=
  c8_total_row [sampleRowA, sampleRowB] noFlags (by decide)

/-- The scan loop short-circuits: if every file before `bad` scans
successfully and `bad` fails, the whole loop fails with the error of `bad`,
whatever comes after it. -/
theorem scanAll_error (bad : FileEntry) (post : List FileEntry) (e : ScanError)
    (hbad : count bad.1 bad.2 = Except.error e) :
    ∀ pre : List FileEntry, (∀ f ∈ pre, ∃ mf, count f.1 f.2 = Except.ok mf) →
      scanAll (pre ++ bad :: post) = Except.error e := by
  intro pre
  induction pre with
  | nil => intro _; simp [scanAll, hbad]
  | cons f fs ih =>
    intro h
    obtain ⟨mf, hmf⟩ := h f (List.mem_cons_self f fs)
    have hrest := ih (fun g hg => h g (List.mem_cons_of_mem f hg))
    simp [scanAll, hmf, hrest, Except.map]

/-- Claim C7: if `count` fails on the first failing file of the list, the
error propagates (files after it are irrelevant to the result) and nothing
at all is written to the sink — not even rows of earlier files that scanned
successfully. -/
theorem c7_error_suppresses_output (pre : List FileEntry) (bad : FileEntry)
    (post : List FileEntry) (opts : ShowOptions) (e : ScanError)
    (hpre : ∀ f ∈ pre, ∃ mf, count f.1 f.2 = Except.ok mf)
    (hbad : count bad.1 bad.2 = Except.error e) :
    printCountResult (pre ++ bad :: post) opts = some e ∧
    printCountOutput (pre ++ bad :: post) opts = some "" := by
  have hs := scanAll_error bad post e hbad pre hpre
  constructor
  · simp [printCountResult, hs]
  · simp [printCountOutput, hs]

/-- Witness for C7: the second of three files fails to open; the run
reports the I/O error and writes nothing, including no row for the first
file, which scanned fine. -/
theorem c7_witness :
    printCountResult [("a", Except.ok [120]), ("b", Except.error ()), ("c", Except.ok [121])]
      noFlags = some ScanError.ioError ∧
    printCountOutput [("a", Except.ok [120]), ("b", Except.error ()), ("c", Except.ok [121])]
      noFlags = some "" :=
  c7_error_suppresses_output [("a", Except.ok [120])] ("b", Except.error ())
    [("c", Except.ok [121])] noFlags ScanError.ioError
    (by
      intro f hf
      simp only [List.mem_singleton] at hf
      subst hf
      exact ⟨⟨1, 1, 0, 1, 0, "a"⟩, by decide⟩)
    (by decide)

/-- Unfolding `decodeUtf8` over a leading ASCII `'.'` byte. -/
theorem decodeUtf8_cons46 (l : List Nat) :
    decodeUtf8 (46 :: l) = consOrShift 46 1 (decodeUtf8 l) := by
  match l with
  | [] => rfl
  | [_] => rfl
  | [_, _] => rfl
  | [_, _, _] => rfl
  | _ :: _ :: _ :: _ :: _ => rfl

/-- Prepending ASCII bytes (`'.'` = 46) to a byte list shifts decoding:
success prepends the scalars, failure shifts the error offset. -/
theorem decodeUtf8_replicate46 (bs : List Nat) (n : Nat) :
    (∀ cps, decodeUtf8 bs = Except.ok cps →
      decodeUtf8 (List.replicate n 46 ++ bs) = Except.ok (List.replicate n 46 ++ cps)) ∧
    (∀ p, decodeUtf8 bs = Except.error p →
      decodeUtf8 (List.replicate n 46 ++ bs) = Except.error (p + n)) := by
  induction n with
  | zero => simp
  | succ k ih =>
    constructor
    · intro cps h
      have hk := ih.1 cps h
      rw [List.replicate_succ, List.cons_append, decodeUtf8_cons46, hk]
      rfl
    · intro p h
      have hk := ih.2 p h
      rw [List.replicate_succ, List.cons_append, decodeUtf8_cons46, hk]
      show Except.error (p + k + 1) = Except.error (p + (k + 1))
      rw [Nat.add_assoc]

/-- Unfolding of one buffered read when the remaining content is non-empty
and fuel remains. -/
theorem chunks1024Aux_step (fuel : Nat) (l : List Nat) (h : l ≠ []) (hf : fuel ≠ 0) :
    chunks1024Aux fuel l = l.take 1024 :: chunks1024Aux (fuel - 1) (l.drop 1024) := by
  cases fuel with
  | zero => exact absurd rfl hf
  | succ k =>
    cases l with
    | nil => exact absurd rfl h
    | cons c cs => rfl

/-- Claim C6: a file of 1023 ASCII bytes followed by the two-byte UTF-8
encoding of U+00E9 is valid UTF-8 (first conjunct), yet `count` fails with
a decoding error at offset 1023: the first 1024-byte read cuts the two-byte
sequence in half and the chunk is decoded in isolation. -/
theorem c6_chunk_boundary_bug :
    decodeUtf8 (List.replicate 1023 46 ++ [195, 169])
      = Except.ok (List.replicate 1023 46 ++ [233]) ∧
    count "f" (Except.ok (List.replicate 1023 46 ++ [195, 169]))
      = Except.error (ScanError.invalidEncoding 1023) := by
  constructor
  · exact (decodeUtf8_replicate46 [195, 169] 1023).1 [233] (by decide)
  · have hd1 : decodeUtf8 (List.replicate 1023 46 ++ [195]) = Except.error 1023 := by
      have h := (decodeUtf8_replicate46 [195] 1023).2 0 (by decide)
      rwa [Nat.zero_add] at h
    have hlen : (List.replicate 1023 46 ++ [195, 169]).length = 1025 := by
      rw [List.length_append, List.length_replicate]; rfl
    have htake : (List.replicate 1023 46 ++ [195, 169]).take 1024
        = List.replicate 1023 46 ++ [195] := by
      rw [List.take_append_eq_append_take,
        List.take_of_length_le (by rw [List.length_replicate]; norm_num),
        List.length_replicate]
      rfl
    have hdrop : (List.replicate 1023 46 ++ [195, 169]).drop 1024 = [169] := by
      rw [List.drop_append_eq_append_drop,
        List.drop_eq_nil_of_le (by rw [List.length_replicate]; norm_num),
        List.length_replicate]
      rfl
    show processChunks (chunks1024 (List.replicate 1023 46 ++ [195, 169]))
        ⟨0, 0, 0, 0, 0, "f"⟩ = Except.error (ScanError.invalidEncoding 1023)
    rw [chunks1024, hlen,
      chunks1024Aux_step 1025 _
        (List.ne_nil_of_length_pos (by rw [hlen]; norm_num)) (by norm_num),
      htake, hdrop]
    simp only [processChunks, hd1]

/-- Newline counting distributes over append. -/
theorem countNl_append (a b : List Nat) : countNl (a ++ b) = countNl a + countNl b := by
  induction a with
  | nil => simp [countNl]
  | cons c cs ih => simp [countNl, ih]; omega

/-- The end-of-chunk word fix-up does not touch `lines`. -/
theorem endUnit_lines (acc : Metrics) (last : Option Bool) :
    (endUnit acc last).lines = acc.lines := by
  unfold endUnit
  split <;> rfl

/-- One inner loop of `count` adds exactly the newlines it consumes to
`lines`: consumed plus unconsumed newline counts balance. -/
theorem lineStep_lines (cps : List Nat) : ∀ (acc : Metrics) (last : Option Bool),
    (lineStep acc last cps).1.lines + countNl (lineStep acc last cps).2
      = acc.lines + countNl cps := by
  induction cps with
  | nil => intro acc last; simp [lineStep, endUnit_lines, countNl]
  | cons c cs ih =>
    intro acc last
    simp only [lineStep, countNl]
    by_cases h10 : c = 10
    · rw [if_pos h10, if_pos h10]
      simp only [endUnit_lines]
      omega
    · rw [if_neg h10, if_neg h10]
      by_cases hws : isRustWhitespace c
      · rw [if_pos hws]
        have h := ih { acc with
            bytes := acc.bytes + lenUtf8 c, chars := acc.chars + 1,
            max_line_length :=
              if c = 9 then acc.max_line_length + 7 else acc.max_line_length } (some true)
        simp only at h
        omega
      · rw [if_neg hws]
        have h := ih { acc with
            bytes := acc.bytes + lenUtf8 c, chars := acc.chars + 1,
            words := if last = some true then acc.words + 1 else acc.words } (some false)
        simp only at h
        omega

/-- One inner loop of `count` consumes at least one scalar. -/
theorem lineStep_length (cps : List Nat) : ∀ (acc : Metrics) (last : Option Bool),
    cps ≠ [] → (lineStep acc last cps).2.length < cps.length := by
  induction cps with
  | nil => intro acc last h; exact absurd rfl h
  | cons c cs ih =>
    intro acc last _
    simp only [lineStep]
    by_cases h10 : c = 10
    · rw [if_pos h10]
      simp
    · rw [if_neg h10]
      by_cases hws : isRustWhitespace c
      · rw [if_pos hws]
        cases cs with
        | nil => simp [lineStep]
        | cons d ds =>
          have h := ih { acc with
              bytes := acc.bytes + lenUtf8 c, chars := acc.chars + 1,
              max_line_length :=
                if c = 9 then acc.max_line_length + 7 else acc.max_line_length }
            (some true) (by simp)
          simp only [List.length_cons] at h ⊢
          omega
      · rw [if_neg hws]
        cases cs with
        | nil => simp [lineStep]
        | cons d ds =>
          have h := ih { acc with
              bytes := acc.bytes + lenUtf8 c, chars := acc.chars + 1,
              words := if last = some true then acc.words + 1 else acc.words }
            (some false) (by simp)
          simp only [List.length_cons] at h ⊢
          omega

/-- The fuelled chunk loop adds the newline count of the chunk to `lines`
whenever the fuel covers the chunk length. -/
theorem processReadAux_lines (fuel : Nat) : ∀ (cps : List Nat) (acc : Metrics),
    cps.length ≤ fuel → (processReadAux fuel acc cps).lines = acc.lines + countNl cps := by
  induction fuel with
  | zero =>
    intro cps acc h
    have hnil : cps = [] := List.length_eq_zero.mp (Nat.le_zero.mp h)
    subst hnil
    simp [processReadAux, countNl]
  | succ n ih =>
    intro cps acc h
    cases cps with
    | nil => simp [processReadAux, countNl]
    | cons c cs =>
      simp only [processReadAux]
      have hlt := lineStep_length (c :: cs) acc none (by simp)
      have hle : (lineStep acc none (c :: cs)).2.length ≤ n := by
        simp only [List.length_cons] at hlt h
        omega
      rw [ih _ _ hle]
      have hbal := lineStep_lines (c :: cs) acc none
      omega

/-- Processing one buffered chunk adds its newline count to `lines`. -/
theorem processRead_lines (acc : Metrics) (cps : List Nat) :
    (processRead acc cps).lines = acc.lines + countNl cps :=
  processReadAux_lines cps.length cps acc le_rfl

/-- Inversion of `consOrShift` on success. -/
theorem consOrShift_ok {cp k : Nat} {r : Except Nat (List Nat)} {cps : List Nat}
    (h : consOrShift cp k r = Except.ok cps) :
    ∃ tl, r = Except.ok tl ∧ cps = cp :: tl := by
  cases r with
  | ok t =>
    refine ⟨t, rfl, ?_⟩
    simpa [consOrShift] using h.symm
  | error p => simp [consOrShift] at h

/-- Unfolding of `decodeUtf8` on a non-empty byte list. -/
theorem decodeUtf8_cons (b0 : Nat) (bs : List Nat) :
    decodeUtf8 (b0 :: bs) =
      (if b0 < 0x80 then
        consOrShift b0 1 (decodeUtf8 bs)
      else if 0xC2 ≤ b0 ∧ b0 ≤ 0xDF then
        match bs with
        | b1 :: bs2 =>
          if isCont b1 then
            consOrShift ((b0 - 0xC0) * 64 + (b1 - 0x80)) 2 (decodeUtf8 bs2)
          else Except.error 0
        | [] => Except.error 0
      else if 0xE0 ≤ b0 ∧ b0 ≤ 0xEF then
        match bs with
        | b1 :: b2 :: bs3 =>
          if cont3Ok b0 b1 ∧ isCont b2 then
            consOrShift ((b0 - 0xE0) * 4096 + (b1 - 0x80) * 64 + (b2 - 0x80)) 3 (decodeUtf8 bs3)
          else Except.error 0
        | _ => Except.error 0
      else if 0xF0 ≤ b0 ∧ b0 ≤ 0xF4 then
        match bs with
        | b1 :: b2 :: b3 :: bs4 =>
          if cont4Ok b0 b1 ∧ isCont b2 ∧ isCont b3 then
            consOrShift
              ((b0 - 0xF0) * 262144 + (b1 - 0x80) * 4096 + (b2 - 0x80) * 64 + (b3 - 0x80))
              4 (decodeUtf8 bs4)
          else Except.error 0
        | _ => Except.error 0
      else Except.error 0) := by
  match bs with
  | [] => rfl
  | [_] => rfl
  | [_, _] => rfl
  | _ :: _ :: _ :: _ => rfl

/-- Bounds carried by `isCont`. -/
theorem isCont_bounds {b : Nat} (h : isCont b) : 0x80 ≤ b ∧ b ≤ 0xBF := h

/-- A three-byte leading pair yields a scalar of at least 0x800. -/
theorem cont3Ok_cp_large {b0 b1 : Nat} (h : cont3Ok b0 b1) :
    2048 ≤ (b0 - 0xE0) * 4096 + (b1 - 0x80) * 64 := by
  rcases h with ⟨h1, h2, _⟩ | ⟨h1, _, _⟩ | ⟨h1, _, _⟩ | ⟨h1, _, _⟩ <;> omega

/-- The second byte of a three-byte sequence is a high byte. -/
theorem cont3Ok_b1_high {b0 b1 : Nat} (h : cont3Ok b0 b1) : 0x80 ≤ b1 := by
  rcases h with ⟨_, h2, _⟩ | ⟨_, _, h3⟩ | ⟨_, h2, _⟩ | ⟨_, _, h3⟩
  · omega
  · exact h3.1
  · omega
  · exact h3.1

/-- A four-byte leading pair yields a scalar of at least 0x10000. -/
theorem cont4Ok_cp_large {b0 b1 : Nat} (h : cont4Ok b0 b1) :
    65536 ≤ (b0 - 0xF0) * 262144 + (b1 - 0x80) * 4096 := by
  rcases h with ⟨h1, h2, _⟩ | ⟨h1, _, _⟩ | ⟨h1, h2, _⟩ <;> omega

/-- The second byte of a four-byte sequence is a high byte. -/
theorem cont4Ok_b1_high {b0 b1 : Nat} (h : cont4Ok b0 b1) : 0x80 ≤ b1 := by
  rcases h with ⟨_, h2, _⟩ | ⟨_, _, h3⟩ | ⟨_, h2, _⟩
  · omega
  · exact h3.1
  · omega

/-- Successful UTF-8 decoding preserves the number of newlines: the scalar
10 arises exactly from the single byte 10 (multi-byte sequences only use
bytes ≥ 0x80 and only produce scalars ≥ 0x80). -/
theorem decodeUtf8_countNl_aux (n : Nat) : ∀ bs : List Nat, bs.length ≤ n →
    ∀ cps, decodeUtf8 bs = Except.ok cps → countNl cps = countNl bs := by
  induction n with
  | zero =>
    intro bs h cps hd
    have hb : bs = [] := List.length_eq_zero.mp (Nat.le_zero.mp h)
    subst hb
    obtain rfl : ([] : List Nat) = cps :=
      Except.ok.inj (show Except.ok ([] : List Nat) = Except.ok cps from hd)
    rfl
  | succ n ih =>
    intro bs h cps hd
    cases bs with
    | nil =>
      obtain rfl : ([] : List Nat) = cps :=
        Except.ok.inj (show Except.ok ([] : List Nat) = Except.ok cps from hd)
      rfl
    | cons b0 rest =>
      have hlen : rest.length ≤ n := by simp only [List.length_cons] at h; omega
      rw [decodeUtf8_cons] at hd
      split at hd
      · -- one-byte scalar
        obtain ⟨tl, hre, rfl⟩ := consOrShift_ok hd
        have hih := ih rest hlen tl hre
        simp only [countNl, hih]
      · split at hd
        · -- two-byte sequence
          rename_i h1 h2
          split at hd
          · rename_i b1 bs2
            split at hd
            · rename_i h3
              obtain ⟨tl, hre, rfl⟩ := consOrShift_ok hd
              have hih := ih bs2 (by simp only [List.length_cons] at hlen; omega) tl hre
              have hb1 := isCont_bounds h3
              simp only [countNl, hih]
              rw [if_neg (by omega), if_neg (by omega), if_neg (by omega)]
              omega
            · exact Except.noConfusion hd
          · exact Except.noConfusion hd
        · split at hd
          · -- three-byte sequence
            rename_i h1 h2 h3
            split at hd
            · rename_i b1 b2 bs3
              split at hd
              · rename_i h4
                obtain ⟨tl, hre, rfl⟩ := consOrShift_ok hd
                have hih := ih bs3 (by simp only [List.length_cons] at hlen; omega) tl hre
                have hcp := cont3Ok_cp_large h4.1
                have hb1 := cont3Ok_b1_high h4.1
                have hb2 := isCont_bounds h4.2
                simp only [countNl, hih]
                rw [if_neg (by omega), if_neg (by omega), if_neg (by omega),
                  if_neg (by omega)]
                omega
              · exact Except.noConfusion hd
            · exact Except.noConfusion hd
          · split at hd
            · -- four-byte sequence
              rename_i h1 h2 h3 h4
              split at hd
              · rename_i b1 b2 b3 bs4
                split at hd
                · rename_i h5
                  obtain ⟨tl, hre, rfl⟩ := consOrShift_ok hd
                  have hih := ih bs4 (by simp only [List.length_cons] at hlen; omega) tl hre
                  have hcp := cont4Ok_cp_large h5.1
                  have hb1 := cont4Ok_b1_high h5.1
                  have hb2 := isCont_bounds h5.2.1
                  have hb3 := isCont_bounds h5.2.2
                  simp only [countNl, hih]
                  rw [if_neg (by omega), if_neg (by omega), if_neg (by omega),
                    if_neg (by omega), if_neg (by omega)]
                  omega
                · exact Except.noConfusion hd
              · exact Except.noConfusion hd
            · exact Except.noConfusion hd

/-- Successful UTF-8 decoding preserves the number of newlines. -/
theorem decodeUtf8_countNl {bs cps : List Nat} (h : decodeUtf8 bs = Except.ok cps) :
    countNl cps = countNl bs :=
  decodeUtf8_countNl_aux bs.length bs le_rfl cps h

/-- The buffered reads concatenate back to the file content. -/
theorem chunks1024Aux_join (fuel : Nat) : ∀ l : List Nat, l.length ≤ fuel →
    (chunks1024Aux fuel l).flatten = l := by
  induction fuel with
  | zero =>
    intro l h
    have hl : l = [] := List.length_eq_zero.mp (Nat.le_zero.mp h)
    subst hl
    rfl
  | succ k ih =>
    intro l h
    cases l with
    | nil => rfl
    | cons c cs =>
      simp only [chunks1024Aux, List.flatten_cons]
      rw [ih ((c :: cs).drop 1024)
        (by simp only [List.length_drop, List.length_cons] at h ⊢; omega)]
      exact List.take_append_drop 1024 (c :: cs)

/-- The chunk loop of `count` adds the newline count of every chunk. -/
theorem processChunks_lines (chs : List (List Nat)) : ∀ (acc m : Metrics),
    processChunks chs acc = Except.ok m → m.lines = acc.lines + countNl chs.flatten := by
  induction chs with
  | nil =>
    intro acc m h
    obtain rfl : acc = m := Except.ok.inj (show Except.ok acc = Except.ok m from h)
    simp [countNl]
  | cons ch rest ih =>
    intro acc m h
    simp only [processChunks] at h
    split at h
    · exact Except.noConfusion h
    · rename_i cps hdec
      have hm := ih _ _ h
      rw [hm, processRead_lines, decodeUtf8_countNl hdec, List.flatten_cons, countNl_append]
      omega

/-- Claim C9: for every file whose scan succeeds, `lines` is the number of
newline characters in the content — terminators, not logical lines; content
without a trailing newline does not count its final partial line. -/
theorem c9_lines_count (name : String) (content : List Nat) (m : Metrics)
    (h : count name (Except.ok content) = Except.ok m) :
    m.lines = countNl content := by
  have hp : processChunks (chunks1024 content) ⟨0, 0, 0, 0, 0, name⟩ = Except.ok m := h
  have hq := processChunks_lines (chunks1024 content) _ _ hp
  rw [hq, chunks1024, chunks1024Aux_join content.length content le_rfl]
  simp

/-- Witness for C9: content `"a"` (no trailing newline) yields `lines = 0`,
matching its newline count. -/
theorem c9_witness : (⟨1, 1, 0, 1, 0, "f"⟩ : Metrics).lines = countNl [97] :=
  c9_lines_count "f" [97] ⟨1, 1, 0, 1, 0, "f"⟩ (by decide)
